import Mathlib

/-!
Verification of the knowledge-graph write/query engine of this repository
(`src/knowledge graph/kg_agent.py`), shallowly embedded in Lean.

Modelling conventions:
* Python `Dict[str, Any]` property maps become association lists
  `List (String × String)` (values are opaque scalar payloads; only their
  identity matters to the properties proved here).
* A Cypher statement handed to the driver is a `Query`: its text plus the
  named parameters bound on the `session.run` call.
* The Neo4j store is an oracle `Store`: its response (a node id, or an
  error) to the k-th query issued in a session.  Quantifying over the
  oracle quantifies over every pattern of store successes and failures.
* `raise ValueError(...)` / exceptions become `Except String`.
-/

namespace Lumora

abbrev Props := List (String × String)

/-- One character of the class `[A-Za-z0-9_]` in the validator's regex. -/
def isLabelChar (c : Char) : Bool :=
  c.isAlphanum || c == '_'

/-- Membership in the regex language `[A-Za-z][A-Za-z0-9_]*` (anchored,
whole-list): nonempty, ASCII letter first, label characters after. -/
def coreMatchList : List Char → Bool
  | [] => false
  | c :: cs => c.isAlpha && cs.all isLabelChar

/-- Truthiness of Python `re.match(r'^[A-Za-z][A-Za-z0-9_]*$', s)` as used by
`AsyncKnowledgeGraph._validate_label`.  In Python (without `re.MULTILINE`),
`$` matches at the end of the string *or just before a newline at the end of
the string*, so the call also succeeds on `core ++ "\n"`. -/
def re_match_label (s : String) : Bool :=
  coreMatchList s.data || (s.data.getLastD 'x' == '\n' && coreMatchList s.data.dropLast)

/-- Embeds `AsyncKnowledgeGraph._validate_label`: raises `ValueError` when the
regex does not match. -/
def validate_label (label : String) : Except String Unit :=
  if re_match_label label then .ok () else .error ("Invalid entity type: " ++ label)

/-- A statement issued to the store: query text plus the named parameters
bound on the `session.run(...)` call. -/
structure Query where
  text : String
  params : Props
deriving DecidableEq

/-- The `props_string` of `create_entity`: `", ".join(f"{k}: ${k}" for k in properties)`. -/
def props_string (properties : Props) : String :=
  String.intercalate ", " (properties.map (fun kv => kv.1 ++ ": $" ++ kv.1))

/-- Embeds `AsyncKnowledgeGraph.create_entity`, up to the statement it issues:
validates the label, then runs
`CREATE (e:{entity_type} {{props_string}}) RETURN e` with `**properties`
bound as parameters. -/
def create_entity_query (entity_type : String) (properties : Props) : Except String Query :=
  match validate_label entity_type with
  | .error e => .error e
  | .ok _ =>
    .ok { text := "CREATE (e:" ++ entity_type ++ " \x7b" ++ props_string properties
                    ++ "\x7d) RETURN e"
        , params := properties }

/-- The `from_props_str` of `create_relationship`:
`" AND ".join(f"a.{k} = $from_{k}" for k in from_props)`. -/
def from_props_str (from_props : Props) : String :=
  String.intercalate " AND " (from_props.map (fun kv => "a." ++ kv.1 ++ " = $from_" ++ kv.1))

/-- The `to_props_str` of `create_relationship`. -/
def to_props_str (to_props : Props) : String :=
  String.intercalate " AND " (to_props.map (fun kv => "b." ++ kv.1 ++ " = $to_" ++ kv.1))

/-- The `rel_props_str` of `create_relationship`: empty unless `rel_props` is
truthy (Python: neither `None` nor `{}`). -/
def rel_props_str (rel_props : Option Props) : String :=
  match rel_props with
  | none => ""
  | some rp =>
    if rp.isEmpty then ""
    else " \x7b" ++ String.intercalate ", " (rp.map (fun kv => kv.1 ++ ": $rel_" ++ kv.1)) ++ "\x7d"

/-- The `rel_`-prefixed parameters contributed by `rel_props` (only when
truthy, mirroring `if rel_props:`). -/
def rel_params (rel_props : Option Props) : Props :=
  match rel_props with
  | none => []
  | some rp => if rp.isEmpty then [] else rp.map (fun kv => ("rel_" ++ kv.1, kv.2))

/-- Embeds `AsyncKnowledgeGraph.create_relationship`, up to the statement it issues:
validates `from_type` and `to_type` (the source does NOT validate
`rel_type`), namespaces parameters with `from_` / `to_` / `rel_` prefixes,
and issues the MATCH/CREATE statement with those parameters bound. -/
def create_relationship_query (from_type : String) (from_props : Props) (rel_type : String)
    (to_type : String) (to_props : Props) (rel_props : Option Props) : Except String Query :=
  match validate_label from_type with
  | .error e => .error e
  | .ok _ =>
    match validate_label to_type with
    | .error e => .error e
    | .ok _ =>
      .ok { text := "\n            MATCH (a:" ++ from_type ++ "), (b:" ++ to_type
                      ++ ")\n            WHERE " ++ from_props_str from_props ++ " AND "
                      ++ to_props_str to_props ++ "\n            CREATE (a)-[r:" ++ rel_type
                      ++ rel_props_str rel_props ++ "]->(b)\n            RETURN a, r, b\n            "
          , params := (from_props.map (fun kv => ("from_" ++ kv.1, kv.2)))
                        ++ (to_props.map (fun kv => ("to_" ++ kv.1, kv.2)))
                        ++ rel_params rel_props }

/-- The `props_str` of `get_related_entities`:
`" AND ".join(f"e.{k} = ${entity_type}_{k}" for k in properties)` — note the
parameter names in the clause are prefixed with the entity type. -/
def get_related_props_str (entity_type : String) (properties : Props) : String :=
  String.intercalate " AND "
    (properties.map (fun kv => "e." ++ kv.1 ++ " = $" ++ entity_type ++ "_" ++ kv.1))

/-- Embeds `AsyncKnowledgeGraph.get_related_entities`, up to the statement it
issues: validates the label, builds the bounded-depth MATCH, and runs it
with `**properties` (the RAW keys) bound as parameters. -/
def get_related_query (entity_type : String) (properties : Props) (depth : Nat) :
    Except String Query :=
  match validate_label entity_type with
  | .error e => .error e
  | .ok _ =>
    .ok { text := "\n            MATCH path = (e:" ++ entity_type ++ ")-[*1.."
                    ++ toString depth ++ "]-(related)\n            WHERE "
                    ++ get_related_props_str entity_type properties
                    ++ "\n            RETURN related\n            "
        , params := properties }

/-- The store oracle: the store's response (created-record id, or a store
error) to the k-th query issued in the session.  Making the response a
function of the call index and the query quantifies over every pattern of
per-call success and failure. -/
abbrev Store := Nat → Query → Except String Nat

/-- A store call issued by the reconciler, tagged by the adapter method that
issued it. -/
inductive StoreCall
  | entity (q : Query)
  | rel (q : Query)
deriving DecidableEq

/-- One entity record of the Extractor's output.  `none` models a missing
`"type"` / `"properties"` field in the extracted JSON object. -/
structure RawEntity where
  type? : Option String
  properties? : Option Props
deriving DecidableEq

/-- One relationship record of the Extractor's output.  `none` in a required
field models a missing key (accessing it raises `KeyError`, caught by the
per-item handler); `rel_props?` is the result of `rel.get("rel_props")`. -/
structure RawRel where
  from_type? : Option String
  from_props? : Option Props
  rel_type? : Option String
  to_type? : Option String
  to_props? : Option Props
  rel_props? : Option Props
deriving DecidableEq

/-- A structured per-item error accumulated in `errors`.  The source formats
each of these into a string (`f"Invalid entity structure: {entity}"`,
`f"Error creating entity {entity}: {msg}"`,
`f"Error creating relationship {rel}: {msg}"`); the constructor carries
exactly the data those strings are built from. -/
inductive RErr
  | invalidEntity (e : RawEntity)
  | entityFailed (e : RawEntity) (msg : String)
  | relFailed (r : RawRel) (msg : String)
deriving DecidableEq

/-- The Extractor's output shape: `{"entities": [...], "relationships": [...]}`. -/
structure Extraction where
  entities : List RawEntity
  relationships : List RawRel
deriving DecidableEq

/-- Result of one phase of `process_task`: summaries appended, errors
appended, store calls issued, and the store-call counter after the phase. -/
structure PhaseOut where
  created : List String
  errs : List RErr
  issued : List StoreCall
  next : Nat
deriving DecidableEq

/-- The entity loop body of `process_task` for a single extracted entity:
check both fields are present (else record `Invalid entity structure` and
issue nothing), then attempt `create_entity`; validation failure or store
failure becomes one error, success one summary. -/
def entityOutcome (store : Store) (k : Nat) (e : RawEntity) : PhaseOut :=
  match e.type?, e.properties? with
  | some t, some ps =>
    match create_entity_query t ps with
    | .error msg => ⟨[], [.entityFailed e msg], [], k⟩
    | .ok q =>
      match store k q with
      | .error msg => ⟨[], [.entityFailed e msg], [.entity q], k + 1⟩
      | .ok id => ⟨["Created " ++ t ++ " entity with ID: " ++ toString id], [], [.entity q], k + 1⟩
  | _, _ => ⟨[], [.invalidEntity e], [], k⟩

/-- The entity loop of `process_task` over the extracted entities in order. -/
def processEntities (store : Store) (k : Nat) : List RawEntity → PhaseOut
  | [] => ⟨[], [], [], k⟩
  | e :: rest =>
    let o := entityOutcome store k e
    let r := processEntities store o.next rest
    ⟨o.created ++ r.created, o.errs ++ r.errs, o.issued ++ r.issued, r.next⟩

/-- The relationship loop body of `process_task` for a single extracted
relationship: accessing a missing required key raises `KeyError`, caught as
one error with nothing issued; otherwise attempt `create_relationship`. -/
def relOutcome (store : Store) (k : Nat) (r : RawRel) : PhaseOut :=
  match r.from_type?, r.from_props?, r.rel_type?, r.to_type?, r.to_props? with
  | some ft, some fp, some rt, some tt, some tp =>
    match create_relationship_query ft fp rt tt tp r.rel_props? with
    | .error msg => ⟨[], [.relFailed r msg], [], k⟩
    | .ok q =>
      match store k q with
      | .error msg => ⟨[], [.relFailed r msg], [.rel q], k + 1⟩
      | .ok _ =>
        ⟨["Created relationship: (" ++ ft ++ ")-[" ++ rt ++ "]->(" ++ tt ++ ")"], [],
          [.rel q], k + 1⟩
  | _, _, _, _, _ => ⟨[], [.relFailed r "KeyError"], [], k⟩

/-- The relationship loop of `process_task` over the extracted
relationships in order (run after the whole entity loop). -/
def processRels (store : Store) (k : Nat) : List RawRel → PhaseOut
  | [] => ⟨[], [], [], k⟩
  | r :: rest =>
    let o := relOutcome store k r
    let rec' := processRels store o.next rest
    ⟨o.created ++ rec'.created, o.errs ++ rec'.errs, o.issued ++ rec'.issued, rec'.next⟩

/-- The dictionary returned by `process_task`, plus `issued`: the ordered
trace of store calls made while producing it. -/
structure ReconcileOutcome where
  created_entities : List String
  created_relationships : List String
  errors : List RErr
  issued : List StoreCall
deriving DecidableEq

/-- The body of `process_task` after the extraction is in hand: entity loop
first, relationship loop second, errors accumulated in that order. -/
def reconcileExtraction (store : Store) (ext : Extraction) : ReconcileOutcome :=
  let oe := processEntities store 0 ext.entities
  let orl := processRels store oe.next ext.relationships
  ⟨oe.created, orl.created, oe.errs ++ orl.errs, oe.issued ++ orl.issued⟩

/-- A task record (`Dict[str, Any]`); Python `not task` is true exactly for
the empty dict, modelled as the empty association list. -/
abbrev Task := List (String × String)

/-- Embeds `extract_entities_from_task` as seen by `process_task`: the external
LLM/parse step is an oracle returning `none` when `json.loads` raises
`JSONDecodeError`; that exception is caught and replaced by the empty shape
`{"entities": [], "relationships": []}`. -/
def extract_entities_from_task (extractor : Task → Option Extraction) (task : Task) :
    Extraction :=
  (extractor task).getD ⟨[], []⟩

/-- Embeds `AsyncKnowledgeGraphAgent.process_task`: rejects an empty task record,
otherwise reconciles the (possibly fallen-back) extraction. -/
def processTask (store : Store) (extractor : Task → Option Extraction) (task : Task) :
    Except String ReconcileOutcome :=
  if task = [] then .error "Task cannot be empty"
  else .ok (reconcileExtraction store (extract_entities_from_task extractor task))

/-- Embeds `asyncio.gather(*coros)` over completed `process_task` results: returns
the list of results in input order, or raises if any coroutine raised. -/
def gatherExcept : List (Except String ReconcileOutcome) →
    Except String (List ReconcileOutcome)
  | [] => .ok []
  | .error e :: _ => .error e
  | .ok r :: rest =>
    match gatherExcept rest with
    | .error e => .error e
    | .ok rs => .ok (r :: rs)

/-- Embeds `AsyncKnowledgeGraphAgent.learn_from_tasks`: fan `process_task` out over
the batch and gather the results in input order. -/
def learn_from_tasks (store : Store) (extractor : Task → Option Extraction)
    (tasks : List Task) : Except String (List ReconcileOutcome) :=
  gatherExcept (tasks.map (processTask store extractor))

/-- Discriminates relationship-creation store calls. -/
def isRelCall : StoreCall → Bool
  | .rel _ => true
  | .entity _ => false

/-- Discriminates entity-creation store calls. -/
def isEntityCall : StoreCall → Bool
  | .entity _ => true
  | .rel _ => false

/-- A trace in which no relationship-creation call precedes any
entity-creation call: once a relationship call appears, every later call is
also a relationship call. -/
def entitiesFirst : List StoreCall → Bool
  | [] => true
  | .entity _ :: rest => entitiesFirst rest
  | .rel _ :: rest => rest.all isRelCall

/-- Errors recorded by the entity loop (malformed structure or failed
entity creation). -/
def isEntityErr : RErr → Bool
  | .invalidEntity _ => true
  | .entityFailed _ _ => true
  | .relFailed _ _ => false

/-- Errors recorded by the relationship loop. -/
def isRelErr : RErr → Bool
  | .relFailed _ _ => true
  | .invalidEntity _ => false
  | .entityFailed _ _ => false

/-- A store oracle that accepts every statement (ids all 0). -/
def okStore : Store := fun _ _ => .ok 0

/-- An extracted entity that the entity loop can commit when the store
accepts: both fields present and the label passes the validator. -/
def creatableEntity (e : RawEntity) : Bool :=
  match e.type?, e.properties? with
  | some t, some _ => re_match_label t
  | _, _ => false

/-- Whether `needle` is a prefix of `hay` (character lists). -/
def startsList : List Char → List Char → Bool
  | [], _ => true
  | _ :: _, [] => false
  | a :: as, b :: bs => a == b && startsList as bs

/-- Whether `needle` occurs contiguously somewhere inside `hay`. -/
def occursList (needle : List Char) : List Char → Bool
  | [] => needle.isEmpty
  | c :: rest => startsList needle (c :: rest) || occursList needle rest

/-- Whether `needle` occurs as a substring of `hay`. -/
def occursIn (needle hay : String) : Bool :=
  occursList needle.data hay.data

/-- Fixture for the reconcile scenario: three well-formed entities and one
entity whose `"properties"` field is missing. -/
def ext4 : Extraction :=
  { entities :=
      [⟨some "Person", some [("name", "A")]⟩,
       ⟨some "Tool", some [("name", "B")]⟩,
       ⟨some "Task", some [("task_id", "1")]⟩,
       ⟨some "Ghost", none⟩]
  , relationships := [] }

/-- Fixture: an extraction with one entity and two relationships, used to
exhibit the store-call ordering on a concrete input. -/
def extOrd : Extraction :=
  { entities := [⟨some "Person", some [("name", "A")]⟩]
  , relationships :=
      [⟨some "Person", some [("name", "A")], some "USES", some "Tool",
        some [("name", "B")], none⟩,
       ⟨some "Person", some [("name", "A")], some "SENDS_TO", some "Person",
        some [("name", "C")], none⟩] }

section Lemmas

/-- Appending on the left of a fixed string is injective. -/
theorem string_append_inj (p : String) : Function.Injective (fun s => p ++ s) := by
  intro a b h
  apply String.ext
  have h2 := congrArg String.data h
  simp only [String.data_append] at h2
  exact List.append_cancel_left h2

/-- Strings extending two prefixes that differ in their first character are
never equal. -/
theorem append_ne_of_head_ne (p₁ p₂ : String) (c₁ c₂ : Char) (t₁ t₂ : List Char)
    (h₁ : p₁.data = c₁ :: t₁) (h₂ : p₂.data = c₂ :: t₂) (hc : c₁ ≠ c₂) (a b : String) :
    p₁ ++ a ≠ p₂ ++ b := by
  intro h
  have h3 := congrArg String.data h
  simp only [String.data_append, h₁, h₂, List.cons_append, List.cons.injEq] at h3
  exact hc h3.1

/-- Every error class is entity-side or relationship-side, never both. -/
theorem isRelErr_eq_not_isEntityErr (x : RErr) : isRelErr x = !isEntityErr x := by
  cases x <;> rfl

/-- One extracted entity contributes exactly one outcome (a summary or an
entity-side error), and the entity loop only ever issues entity-creation
calls. -/
theorem entityOutcome_spec (store : Store) (k : Nat) (e : RawEntity) :
    (entityOutcome store k e).created.length + (entityOutcome store k e).errs.length = 1 ∧
    (∀ x ∈ (entityOutcome store k e).errs, isEntityErr x = true) ∧
    (∀ c ∈ (entityOutcome store k e).issued, isEntityCall c = true) := by
  unfold entityOutcome
  cases ht : e.type? with
  | none => simp [ht, isEntityErr]
  | some t =>
    cases hp : e.properties? with
    | none => simp [ht, hp, isEntityErr]
    | some ps =>
      cases hq : create_entity_query t ps with
      | error msg => simp [ht, hp, hq, isEntityErr]
      | ok q =>
        cases hs : store k q with
        | error msg => simp [ht, hp, hq, hs, isEntityErr, isEntityCall]
        | ok id => simp [ht, hp, hq, hs, isEntityCall]

/-- The entity loop: outcomes are conserved one per extracted entity, all
its errors are entity-side, all its store calls entity-creation calls. -/
theorem processEntities_spec (store : Store) (k : Nat) (ents : List RawEntity) :
    (processEntities store k ents).created.length
        + (processEntities store k ents).errs.length = ents.length ∧
    (∀ x ∈ (processEntities store k ents).errs, isEntityErr x = true) ∧
    (∀ c ∈ (processEntities store k ents).issued, isEntityCall c = true) := by
  induction ents generalizing k with
  | nil => simp [processEntities]
  | cons e rest ih =>
    have he := entityOutcome_spec store k e
    have hr := ih (entityOutcome store k e).next
    simp only [processEntities, List.length_append, List.length_cons, List.mem_append]
    refine ⟨by omega, ?_, ?_⟩
    · intro x hx
      cases hx with
      | inl h => exact he.2.1 x h
      | inr h => exact hr.2.1 x h
    · intro c hc
      cases hc with
      | inl h => exact he.2.2 c h
      | inr h => exact hr.2.2 c h

/-- One extracted relationship contributes exactly one outcome, and the
relationship loop only ever issues relationship-creation calls. -/
theorem relOutcome_spec (store : Store) (k : Nat) (r : RawRel) :
    (relOutcome store k r).created.length + (relOutcome store k r).errs.length = 1 ∧
    (∀ x ∈ (relOutcome store k r).errs, isRelErr x = true) ∧
    (∀ c ∈ (relOutcome store k r).issued, isRelCall c = true) := by
  unfold relOutcome
  cases h1 : r.from_type? with
  | none => simp [h1, isRelErr]
  | some ft =>
    cases h2 : r.from_props? with
    | none => simp [h1, h2, isRelErr]
    | some fp =>
      cases h3 : r.rel_type? with
      | none => simp [h1, h2, h3, isRelErr]
      | some rt =>
        cases h4 : r.to_type? with
        | none => simp [h1, h2, h3, h4, isRelErr]
        | some tt =>
          cases h5 : r.to_props? with
          | none => simp [h1, h2, h3, h4, h5, isRelErr]
          | some tp =>
            cases h6 : create_relationship_query ft fp rt tt tp r.rel_props? with
            | error msg => simp [h1, h2, h3, h4, h5, h6, isRelErr]
            | ok q =>
              cases h7 : store k q with
              | error msg => simp [h1, h2, h3, h4, h5, h6, h7, isRelErr, isRelCall]
              | ok id => simp [h1, h2, h3, h4, h5, h6, h7, isRelCall]

/-- The relationship loop: outcomes conserved one per extracted
relationship, all errors relationship-side, all calls relationship calls. -/
theorem processRels_spec (store : Store) (k : Nat) (rels : List RawRel) :
    (processRels store k rels).created.length
        + (processRels store k rels).errs.length = rels.length ∧
    (∀ x ∈ (processRels store k rels).errs, isRelErr x = true) ∧
    (∀ c ∈ (processRels store k rels).issued, isRelCall c = true) := by
  induction rels generalizing k with
  | nil => simp [processRels]
  | cons r rest ih =>
    have he := relOutcome_spec store k r
    have hr := ih (relOutcome store k r).next
    simp only [processRels, List.length_append, List.length_cons, List.mem_append]
    refine ⟨by omega, ?_, ?_⟩
    · intro x hx
      cases hx with
      | inl h => exact he.2.1 x h
      | inr h => exact hr.2.1 x h
    · intro c hc
      cases hc with
      | inl h => exact he.2.2 c h
      | inr h => exact hr.2.2 c h

/-- A block of entity-creation calls followed by a block of
relationship-creation calls satisfies `entitiesFirst`. -/
theorem entitiesFirst_append {l₁ l₂ : List StoreCall}
    (h₁ : ∀ c ∈ l₁, isEntityCall c = true) (h₂ : ∀ c ∈ l₂, isRelCall c = true) :
    entitiesFirst (l₁ ++ l₂) = true := by
  induction l₁ with
  | nil =>
    cases l₂ with
    | nil => rfl
    | cons c rest =>
      have hc := h₂ c (by simp)
      cases c with
      | entity q => simp [isRelCall] at hc
      | rel q =>
        simp only [List.nil_append, entitiesFirst, List.all_eq_true]
        intro x hx
        exact h₂ x (by simp [hx])
  | cons c rest ih =>
    have hc := h₁ c (by simp)
    cases c with
    | rel q => simp [isEntityCall] at hc
    | entity q =>
      simp only [List.cons_append, entitiesFirst]
      exact ih (fun x hx => h₁ x (by simp [hx]))

/-- The entity loop distributes over list append (threading the store-call
counter). -/
theorem processEntities_append (store : Store) (k : Nat) (l₁ l₂ : List RawEntity) :
    processEntities store k (l₁ ++ l₂) =
      ⟨(processEntities store k l₁).created
          ++ (processEntities store (processEntities store k l₁).next l₂).created,
       (processEntities store k l₁).errs
          ++ (processEntities store (processEntities store k l₁).next l₂).errs,
       (processEntities store k l₁).issued
          ++ (processEntities store (processEntities store k l₁).next l₂).issued,
       (processEntities store (processEntities store k l₁).next l₂).next⟩ := by
  induction l₁ generalizing k with
  | nil => simp [processEntities]
  | cons e rest ih => simp [processEntities, ih, List.append_assoc]

/-- A creatable entity commits when the store accepts: one summary, no
error, one store call. -/
theorem entityOutcome_creatable {store : Store} {k : Nat} {e : RawEntity}
    (hc : creatableEntity e = true) (hs : ∀ q, ∃ n, store k q = .ok n) :
    (entityOutcome store k e).created.length = 1 ∧ (entityOutcome store k e).errs = [] ∧
    (entityOutcome store k e).issued.length = 1 := by
  unfold creatableEntity at hc
  unfold entityOutcome
  cases ht : e.type? with
  | none => simp [ht] at hc
  | some t =>
    cases hp : e.properties? with
    | none => simp [ht, hp] at hc
    | some ps =>
      simp only [ht, hp] at hc
      have hq : create_entity_query t ps =
          .ok { text := "CREATE (e:" ++ t ++ " \x7b" ++ props_string ps ++ "\x7d) RETURN e"
              , params := ps } := by
        unfold create_entity_query validate_label
        rw [if_pos hc]
      obtain ⟨n, hn⟩ := hs ⟨"CREATE (e:" ++ t ++ " \x7b" ++ props_string ps
        ++ "\x7d) RETURN e", ps⟩
      simp [ht, hp, hq, hn]

/-- The entity loop over creatable entities with an always-accepting store
commits every entity and records no error. -/
theorem processEntities_allOk {store : Store} (hs : ∀ k q, ∃ n, store k q = .ok n)
    (k : Nat) (ents : List RawEntity) (hc : ∀ e ∈ ents, creatableEntity e = true) :
    (processEntities store k ents).created.length = ents.length ∧
    (processEntities store k ents).errs = [] ∧
    (processEntities store k ents).issued.length = ents.length := by
  induction ents generalizing k with
  | nil => simp [processEntities]
  | cons e rest ih =>
    have he := entityOutcome_creatable (hc e (by simp)) (hs k)
    have hr := ih (entityOutcome store k e).next (fun x hx => hc x (by simp [hx]))
    simp only [processEntities, List.length_append, List.length_cons]
    refine ⟨by omega, ?_, by omega⟩
    rw [he.2.1, hr.2.1]
    rfl

/-- A malformed extracted entity (missing `"type"` or `"properties"`)
records exactly the structure error and issues no store call. -/
theorem entityOutcome_malformed {store : Store} {k : Nat} {e : RawEntity}
    (h : e.type? = none ∨ e.properties? = none) :
    entityOutcome store k e = ⟨[], [.invalidEntity e], [], k⟩ := by
  unfold entityOutcome
  cases ht : e.type? with
  | none => rfl
  | some t =>
    cases hp : e.properties? with
    | none => rfl
    | some ps =>
      rw [ht, hp] at h
      cases h with
      | inl h => exact absurd h (by simp)
      | inr h => exact absurd h (by simp)

/-- The entity loop over a batch with exactly one malformed entity and an
always-accepting store: every well-formed entity commits, the malformed one
contributes exactly the structure error, and no store call is issued for
it. -/
theorem processEntities_one_malformed {store : Store} (hs : ∀ k q, ∃ n, store k q = .ok n)
    (k : Nat) (ents₁ ents₂ : List RawEntity) (e : RawEntity)
    (hmal : e.type? = none ∨ e.properties? = none)
    (hg₁ : ∀ x ∈ ents₁, creatableEntity x = true)
    (hg₂ : ∀ x ∈ ents₂, creatableEntity x = true) :
    (processEntities store k (ents₁ ++ e :: ents₂)).created.length
        = ents₁.length + ents₂.length ∧
    (processEntities store k (ents₁ ++ e :: ents₂)).errs = [.invalidEntity e] ∧
    (processEntities store k (ents₁ ++ e :: ents₂)).issued.length
        = ents₁.length + ents₂.length := by
  have ha := processEntities_append store k ents₁ (e :: ents₂)
  have h₁ := processEntities_allOk hs k ents₁ hg₁
  have hm := @entityOutcome_malformed store (processEntities store k ents₁).next e hmal
  have h₂ := processEntities_allOk hs (processEntities store k ents₁).next ents₂ hg₂
  rw [ha]
  simp only [processEntities, hm]
  simp [List.length_append, h₁.1, h₁.2.1, h₁.2.2, h₂.1, h₂.2.1, h₂.2.2]

/-- A successful `create_relationship` returns the statement whose bound
parameters are the role-prefixed unions of the three property maps. -/
theorem create_relationship_query_ok {ft tt : String} (rt : String) (fp tp : Props)
    (rp : Option Props) (hft : re_match_label ft = true) (htt : re_match_label tt = true) :
    ∃ q, create_relationship_query ft fp rt tt tp rp = .ok q ∧
      q.params = (fp.map fun kv => ("from_" ++ kv.1, kv.2))
        ++ (tp.map fun kv => ("to_" ++ kv.1, kv.2)) ++ rel_params rp := by
  unfold create_relationship_query validate_label
  rw [if_pos hft, if_pos htt]
  exact ⟨_, rfl, rfl⟩

/-- Gathering `process_task` coroutines for nonempty task records
returns the per-record reconcile results in input order. -/
theorem learn_from_tasks_ok (store : Store) (extractor : Task → Option Extraction)
    (tasks : List Task) (h : ∀ t ∈ tasks, t ≠ []) :
    learn_from_tasks store extractor tasks
      = .ok (tasks.map (fun t =>
          reconcileExtraction store (extract_entities_from_task extractor t))) := by
  unfold learn_from_tasks
  induction tasks with
  | nil => rfl
  | cons t rest ih =>
    have hne := h t (by simp)
    have ihr := ih (fun x hx => h x (by simp [hx]))
    simp only [List.map_cons, processTask, if_neg hne, gatherExcept, ihr]

end Lemmas

/-- Extracting the regex success from a successful validation. -/
theorem validate_label_ok {t : String} {u : Unit} (h : validate_label t = .ok u) :
    re_match_label t = true := by
  unfold validate_label at h
  by_cases hr : re_match_label t = true
  · exact hr
  · rw [if_neg hr] at h
    cases h

/-- Claim C1: `create_relationship` is claimed to validate all three labels
and never issue a query containing an invalid `rel_type`.  The code only
validates `from_type` and `to_type`: with `rel_type = "KNOWS; X"`, which
fails the label rule, the operation still succeeds and the relationship
loop issues a store query whose text contains the unvalidated `rel_type`
interpolated verbatim. -/
theorem rel_type_bypasses_validation :
    re_match_label "KNOWS; X" = false ∧
    (∃ q, create_relationship_query "Person" [("name", "X")] "KNOWS; X" "Person"
        [("name", "Y")] none = .ok q ∧ occursIn "KNOWS; X" q.text = true) ∧
    (∃ q, (relOutcome okStore 0 ⟨some "Person", some [("name", "X")], some "KNOWS; X",
        some "Person", some [("name", "Y")], none⟩).issued = [.rel q] ∧
        occursIn "KNOWS; X" q.text = true) := by
  refine ⟨by decide, ⟨_, rfl, by decide⟩, ⟨_, rfl, by decide⟩⟩

/-- Claim C2: `get_related` is claimed to reference in its match clause
exactly the parameter names it binds.  The code writes
`e.name = $Person_name` into the clause but binds the raw key `name`: the
referenced name `Person_name` is not among the bound parameter names, so
every call with nonempty properties sends the store a query referencing an
unbound parameter. -/
theorem get_related_binds_mismatched_parameter_names :
    ∃ q, get_related_query "Person" [("name", "Alice")] 1 = .ok q ∧
      occursIn "$Person_name" q.text = true ∧
      q.params.map Prod.fst = ["name"] ∧
      ¬ ("Person_name" ∈ q.params.map Prod.fst) := by
  refine ⟨_, rfl, by decide, by decide, by decide⟩

/-- Claim C3, counterexample: the claim says only the label is interpolated
into the creation statement and no other part of the property map appears
in the query text.  In fact the property KEYS are interpolated: two maps
differing only in a key produce different query texts, and the key `name`
occurs verbatim in the text. -/
theorem create_entity_text_mentions_property_keys :
    (∃ q, create_entity_query "Person" [("name", "X")] = .ok q ∧
      occursIn "name" q.text = true ∧
      (∃ q2, create_entity_query "Person" [("age", "X")] = .ok q2 ∧ q.text ≠ q2.text)) := by
  refine ⟨_, rfl, by decide, _, rfl, by decide⟩

/-- Rewriting `props_string` to make explicit that it depends only on the
property keys. -/
theorem props_string_eq_keys (ps : Props) :
    props_string ps
      = String.intercalate ", " ((ps.map Prod.fst).map (fun k => k ++ ": $" ++ k)) := by
  unfold props_string
  rw [List.map_map]
  rfl

/-- Claim C3, amended: the creation statement binds each property VALUE as
a named parameter and never interpolates it — the query text is a function
of the (validated) label and the property keys alone, while the full
property map is passed as the bound parameter set. -/
theorem create_entity_values_parameter_bound (t : String) (ps₁ ps₂ : Props)
    (hkeys : ps₁.map Prod.fst = ps₂.map Prod.fst) :
    ((create_entity_query t ps₁).toOption.map Query.text
        = (create_entity_query t ps₂).toOption.map Query.text) ∧
    (∀ q, create_entity_query t ps₁ = .ok q → q.params = ps₁ ∧ re_match_label t = true) := by
  have hps : props_string ps₁ = props_string ps₂ := by
    rw [props_string_eq_keys, props_string_eq_keys, hkeys]
  constructor
  · unfold create_entity_query
    cases h : validate_label t with
    | error e => simp
    | ok u => simp [hps, Except.toOption]
  · intro q hq
    unfold create_entity_query at hq
    cases h : validate_label t with
    | error e => rw [h] at hq; cases hq
    | ok u =>
      rw [h] at hq
      refine ⟨?_, validate_label_ok h⟩
      cases hq
      rfl

/-- Witness for the amended C3 at the concrete maps
`{"name": "X"}` / `{"name": "Y"}`. -/
theorem create_entity_values_parameter_bound_witness :
    ((create_entity_query "Person" [("name", "X")]).toOption.map Query.text
        = (create_entity_query "Person" [("name", "Y")]).toOption.map Query.text) ∧
    (∀ q, create_entity_query "Person" [("name", "X")] = .ok q →
      q.params = [("name", "X")] ∧ re_match_label "Person" = true) :=
  create_entity_values_parameter_bound "Person" [("name", "X")] [("name", "Y")] (by decide)

/-- Claim C6: the validator is claimed to accept exactly the language
`^[A-Za-z][A-Za-z0-9_]*$` and reject every string containing a character
outside `[A-Za-z0-9_]` anywhere.  Python's `$` (used via `re.match`) also
matches just before a newline at the end of the string, so the code accepts
`"A\n"` — a string outside the claimed language containing a whitespace
character — and `create_entity` then interpolates it into a query. -/
theorem validator_accepts_trailing_newline :
    re_match_label "A\n" = true ∧ coreMatchList "A\n".data = false ∧
    isLabelChar '\n' = false ∧
    (∃ q, create_entity_query "A\n" [("name", "X")] = .ok q ∧
      occursIn "A\n" q.text = true) := by
  refine ⟨by decide, by decide, by decide, _, rfl, by decide⟩

/-- Claim C7: `process_task` raises exactly when the task record is empty;
for a nonempty record whose Extractor output is unparseable (the parse
oracle returns `none`), it proceeds with the empty extraction
`{entities: [], relationships: []}` and returns normally. -/
theorem reconcile_raises_iff_empty_task (store : Store)
    (extractor : Task → Option Extraction) (task : Task) :
    ((∃ e, processTask store extractor task = .error e) ↔ task = []) ∧
    (task ≠ [] → extractor task = none →
      processTask store extractor task = .ok (reconcileExtraction store ⟨[], []⟩)) := by
  constructor
  · constructor
    · rintro ⟨e, he⟩
      by_contra hne
      simp [processTask, hne] at he
    · intro h
      exact ⟨"Task cannot be empty", by simp [processTask, h]⟩
  · intro h hx
    simp [processTask, h, extract_entities_from_task, hx]

/-- Witness for C7: a concrete nonempty task with an unparseable
extraction neither raises nor loses the record. -/
theorem reconcile_raises_iff_empty_task_witness :
    processTask okStore (fun _ => none) [("id", "t1")]
      = .ok (reconcileExtraction okStore ⟨[], []⟩) :=
  (reconcile_raises_iff_empty_task okStore (fun _ => none) [("id", "t1")]).2
    (by decide) rfl

/-- Claim C9: within one reconcile call, every entity-creation store call
precedes every relationship-creation store call — in the issued trace, once
a relationship call appears, every later call is a relationship call, for
every store behavior and every extraction. -/
theorem entities_created_before_relationships (store : Store) (ext : Extraction) :
    entitiesFirst (reconcileExtraction store ext).issued = true := by
  unfold reconcileExtraction
  exact entitiesFirst_append (processEntities_spec store 0 ext.entities).2.2
    (processRels_spec store (processEntities store 0 ext.entities).next ext.relationships).2.2

/-- Claim C10: every extracted item contributes exactly one outcome:
entity summaries plus entity-side errors count the extracted entities, and
relationship summaries plus relationship-side errors count the extracted
relationships — for every pattern of store successes and failures. -/
theorem reconcile_outcome_conservation (store : Store)
    (extractor : Task → Option Extraction) (task : Task) (h : task ≠ []) :
    ∃ o, processTask store extractor task = .ok o ∧
      o.created_entities.length + o.errors.countP isEntityErr
        = (extract_entities_from_task extractor task).entities.length ∧
      o.created_relationships.length + o.errors.countP isRelErr
        = (extract_entities_from_task extractor task).relationships.length := by
  refine ⟨reconcileExtraction store (extract_entities_from_task extractor task),
    by simp [processTask, h], ?_, ?_⟩
  all_goals
    have hpe := processEntities_spec store 0 (extract_entities_from_task extractor task).entities
    have hpr := processRels_spec store
      (processEntities store 0 (extract_entities_from_task extractor task).entities).next
      (extract_entities_from_task extractor task).relationships
    simp only [reconcileExtraction]
    rw [List.countP_append]
  · have ha : List.countP isEntityErr (processEntities store 0
        (extract_entities_from_task extractor task).entities).errs
        = (processEntities store 0
            (extract_entities_from_task extractor task).entities).errs.length :=
      List.countP_eq_length.2 hpe.2.1
    have hb : List.countP isEntityErr (processRels store
        (processEntities store 0 (extract_entities_from_task extractor task).entities).next
        (extract_entities_from_task extractor task).relationships).errs = 0 := by
      rw [List.countP_eq_zero]
      intro a hma
      have := hpr.2.1 a hma
      rw [isRelErr_eq_not_isEntityErr] at this
      simpa using this
    rw [ha, hb]
    have := hpe.1
    omega
  · have ha : List.countP isRelErr (processEntities store 0
        (extract_entities_from_task extractor task).entities).errs = 0 := by
      rw [List.countP_eq_zero]
      intro a hma
      have := hpe.2.1 a hma
      rw [show isEntityErr a = !isRelErr a by cases a <;> rfl] at this
      simpa using this
    have hb : List.countP isRelErr (processRels store
        (processEntities store 0 (extract_entities_from_task extractor task).entities).next
        (extract_entities_from_task extractor task).relationships).errs
        = (processRels store
            (processEntities store 0 (extract_entities_from_task extractor task).entities).next
            (extract_entities_from_task extractor task).relationships).errs.length :=
      List.countP_eq_length.2 hpr.2.1
    rw [ha, hb]
    have := hpr.1
    omega

/-- Claim C4: reconciling an extraction with 3 well-formed entities and 1
entity missing `properties` yields exactly 3 creations, exactly 1 error, no
store call for the malformed entity, and no raise; in general a batch with
1 malformed entity among well-formed creatable ones still commits all the
others, for every always-accepting store. -/
theorem reconcile_isolates_malformed_entity :
    (∃ o, processTask okStore (fun _ => some ext4) [("id", "t1")] = .ok o ∧
       o.created_entities.length = 3 ∧ o.created_relationships = [] ∧
       o.errors.length = 1 ∧ o.issued.length = 3) ∧
    (∀ (store : Store) (ents₁ ents₂ : List RawEntity) (e : RawEntity),
       (e.type? = none ∨ e.properties? = none) →
       (∀ x ∈ ents₁ ++ ents₂, creatableEntity x = true) →
       (∀ k q, ∃ n, store k q = .ok n) →
       (reconcileExtraction store ⟨ents₁ ++ e :: ents₂, []⟩).created_entities.length
           = ents₁.length + ents₂.length ∧
       (reconcileExtraction store ⟨ents₁ ++ e :: ents₂, []⟩).errors = [.invalidEntity e] ∧
       (reconcileExtraction store ⟨ents₁ ++ e :: ents₂, []⟩).issued.length
           = ents₁.length + ents₂.length) := by
  constructor
  · exact ⟨_, rfl, by decide, by decide, by decide, by decide⟩
  · intro store ents₁ ents₂ e hmal hgood hs
    have hm := processEntities_one_malformed hs 0 ents₁ ents₂ e hmal
      (fun x hx => hgood x (by simp [hx])) (fun x hx => hgood x (by simp [hx]))
    simp only [reconcileExtraction, processRels, List.append_nil]
    exact ⟨hm.1, by rw [hm.2.1], hm.2.2⟩

/-- Witness for the general clause of C4: one malformed entity between two
creatable ones commits both of the others and records exactly one error. -/
theorem reconcile_isolates_malformed_entity_witness :
    (reconcileExtraction okStore ⟨[⟨some "Person", some [("name", "A")]⟩] ++
        (⟨none, none⟩ : RawEntity) :: [⟨some "Tool", some [("name", "B")]⟩],
        []⟩).created_entities.length = 2 ∧
    (reconcileExtraction okStore ⟨[⟨some "Person", some [("name", "A")]⟩] ++
        (⟨none, none⟩ : RawEntity) :: [⟨some "Tool", some [("name", "B")]⟩],
        []⟩).errors = [.invalidEntity ⟨none, none⟩] ∧
    (reconcileExtraction okStore ⟨[⟨some "Person", some [("name", "A")]⟩] ++
        (⟨none, none⟩ : RawEntity) :: [⟨some "Tool", some [("name", "B")]⟩],
        []⟩).issued.length = 2 :=
  reconcile_isolates_malformed_entity.2 okStore [⟨some "Person", some [("name", "A")]⟩]
    [⟨some "Tool", some [("name", "B")]⟩] ⟨none, none⟩ (Or.inl rfl) (by decide)
    (fun _ _ => ⟨0, rfl⟩)

/-- Claim C5: over any batch of nonempty task records, `learn` returns
exactly one reconcile result per record, aligned to input order; a record
whose Extractor output is unparseable yields the empty-extraction fallback
result in its slot, and every other record still gets its own result. -/
theorem learn_returns_aligned_results (store : Store)
    (extractor : Task → Option Extraction) (tasks : List Task)
    (h : ∀ t ∈ tasks, t ≠ []) :
    ∃ results, learn_from_tasks store extractor tasks = .ok results ∧
      results.length = tasks.length ∧
      (∀ i (hi : i < tasks.length),
        results[i]? = some (reconcileExtraction store ((extractor tasks[i]).getD ⟨[], []⟩))) ∧
      (∀ i (hi : i < tasks.length), extractor tasks[i] = none →
        results[i]? = some (reconcileExtraction store ⟨[], []⟩)) := by
  refine ⟨_, learn_from_tasks_ok store extractor tasks h, by simp, ?_, ?_⟩
  · intro i hi
    simp [List.getElem?_map, List.getElem?_eq_getElem hi, extract_entities_from_task]
  · intro i hi hnone
    simp [List.getElem?_map, List.getElem?_eq_getElem hi, extract_entities_from_task, hnone]

/-- Witness for C5: two nonempty records whose extractions are both
unparseable still produce two results, the first being the
empty-extraction fallback. -/
theorem learn_returns_aligned_results_witness :
    ∃ results, learn_from_tasks okStore (fun _ => none) [[("a", "1")], [("b", "2")]]
        = .ok results ∧
      results.length = 2 ∧
      results[0]? = some (reconcileExtraction okStore ⟨[], []⟩) := by
  obtain ⟨results, h1, h2, h3, h4⟩ := learn_returns_aligned_results okStore (fun _ => none)
    [[("a", "1")], [("b", "2")]] (by decide)
  exact ⟨results, h1, h2, h4 0 (by decide) rfl⟩

/-- Claim C8: `create_relationship` namespaces every bound parameter by
role (`from_` / `to_` / `rel_`), so the generated parameter set has one
distinct key per (role, property) pair even when the three property maps
share key names; in particular the two sides of a shared key never
overwrite each other. -/
theorem relationship_params_namespaced (ft rt tt : String) (fp tp : Props) (rp : Option Props)
    (hft : re_match_label ft = true) (htt : re_match_label tt = true)
    (hfp : (fp.map Prod.fst).Nodup) (htp : (tp.map Prod.fst).Nodup)
    (hrp : ∀ l, rp = some l → (l.map Prod.fst).Nodup) :
    ∃ q, create_relationship_query ft fp rt tt tp rp = .ok q ∧
      q.params.map Prod.fst
        = fp.map (fun kv => "from_" ++ kv.1) ++ tp.map (fun kv => "to_" ++ kv.1)
            ++ (rel_params rp).map Prod.fst ∧
      (q.params.map Prod.fst).Nodup := by
  obtain ⟨q, hq, hqp⟩ := create_relationship_query_ok rt fp tp rp hft htt
  have hA0 : (fp.map (fun kv : String × String => ("from_" ++ kv.1, kv.2))).map Prod.fst
      = fp.map (fun kv => "from_" ++ kv.1) := by
    rw [List.map_map]
    rfl
  have hB0 : (tp.map (fun kv : String × String => ("to_" ++ kv.1, kv.2))).map Prod.fst
      = tp.map (fun kv => "to_" ++ kv.1) := by
    rw [List.map_map]
    rfl
  have hkeq : q.params.map Prod.fst
      = fp.map (fun kv => "from_" ++ kv.1) ++ tp.map (fun kv => "to_" ++ kv.1)
          ++ (rel_params rp).map Prod.fst := by
    rw [hqp, List.map_append, List.map_append, hA0, hB0]
  have hA' : fp.map (fun kv : String × String => "from_" ++ kv.1)
      = (fp.map Prod.fst).map (fun k => "from_" ++ k) := by
    rw [List.map_map]
    rfl
  have hB' : tp.map (fun kv : String × String => "to_" ++ kv.1)
      = (tp.map Prod.fst).map (fun k => "to_" ++ k) := by
    rw [List.map_map]
    rfl
  have hC : ∃ ks : List String,
      (rel_params rp).map Prod.fst = ks.map (fun k => "rel_" ++ k) ∧ ks.Nodup := by
    cases rp with
    | none => exact ⟨[], by simp [rel_params], List.nodup_nil⟩
    | some l =>
      by_cases he : l.isEmpty = true
      · exact ⟨[], by simp [rel_params, he], List.nodup_nil⟩
      · refine ⟨l.map Prod.fst, ?_, hrp l rfl⟩
        simp only [rel_params, he, if_false, Bool.false_eq_true]
        rw [List.map_map, List.map_map]
        rfl
  obtain ⟨ks, hks, hksnd⟩ := hC
  have hAnd : (fp.map (fun kv : String × String => "from_" ++ kv.1)).Nodup := by
    rw [hA']
    exact hfp.map (string_append_inj "from_")
  have hBnd : (tp.map (fun kv : String × String => "to_" ++ kv.1)).Nodup := by
    rw [hB']
    exact htp.map (string_append_inj "to_")
  have hCnd : ((rel_params rp).map Prod.fst).Nodup := by
    rw [hks]
    exact hksnd.map (string_append_inj "rel_")
  have hmemA : ∀ a ∈ fp.map (fun kv : String × String => "from_" ++ kv.1),
      ∃ k, a = "from_" ++ k := by
    intro a ha
    rw [hA'] at ha
    simp only [List.mem_map] at ha
    obtain ⟨k, _, hk⟩ := ha
    exact ⟨k, hk.symm⟩
  have hmemB : ∀ a ∈ tp.map (fun kv : String × String => "to_" ++ kv.1),
      ∃ k, a = "to_" ++ k := by
    intro a ha
    rw [hB'] at ha
    simp only [List.mem_map] at ha
    obtain ⟨k, _, hk⟩ := ha
    exact ⟨k, hk.symm⟩
  have hmemC : ∀ a ∈ (rel_params rp).map Prod.fst, ∃ k, a = "rel_" ++ k := by
    intro a ha
    rw [hks] at ha
    simp only [List.mem_map] at ha
    obtain ⟨k, _, hk⟩ := ha
    exact ⟨k, hk.symm⟩
  have hdAB : List.Disjoint (fp.map (fun kv : String × String => "from_" ++ kv.1))
      (tp.map (fun kv : String × String => "to_" ++ kv.1)) := by
    intro a haA haB
    obtain ⟨k1, hk1⟩ := hmemA a haA
    obtain ⟨k2, hk2⟩ := hmemB a haB
    exact append_ne_of_head_ne "from_" "to_" 'f' 't' _ _ rfl rfl (by decide) k1 k2
      (hk1.symm.trans hk2)
  have hnd : ((fp.map (fun kv : String × String => "from_" ++ kv.1)
      ++ tp.map (fun kv : String × String => "to_" ++ kv.1))
      ++ (rel_params rp).map Prod.fst).Nodup := by
    refine (hAnd.append hBnd hdAB).append hCnd ?_
    intro a haAB haC
    obtain ⟨k2, hk2⟩ := hmemC a haC
    cases List.mem_append.1 haAB with
    | inl hA =>
      obtain ⟨k1, hk1⟩ := hmemA a hA
      exact append_ne_of_head_ne "from_" "rel_" 'f' 'r' _ _ rfl rfl (by decide) k1 k2
        (hk1.symm.trans hk2)
    | inr hB =>
      obtain ⟨k1, hk1⟩ := hmemB a hB
      exact append_ne_of_head_ne "to_" "rel_" 't' 'r' _ _ rfl rfl (by decide) k1 k2
        (hk1.symm.trans hk2)
  refine ⟨q, hq, hkeq, ?_⟩
  rw [hkeq]
  exact hnd

/-- Witness for C8 at the claim's own instance: `from_props` and
`to_props` both `{"name": "X"}` produce the two distinct bound keys
`from_name` and `to_name`. -/
theorem relationship_params_namespaced_witness :
    ∃ q, create_relationship_query "Person" [("name", "X")] "KNOWS" "Person" [("name", "X")]
        none = .ok q ∧
      q.params.map Prod.fst = ["from_name", "to_name"] ∧ (q.params.map Prod.fst).Nodup := by
  obtain ⟨q, hq, hk, hnd⟩ := relationship_params_namespaced "Person" "KNOWS" "Person"
    [("name", "X")] [("name", "X")] none (by decide) (by decide) (by decide) (by decide)
    (fun l hl => nomatch hl)
  refine ⟨q, hq, ?_, hnd⟩
  rw [hk]
  rfl

/-- Witness for C10 at a concrete task: one entity commits, one
relationship fails its (invalid) label, counts balance. -/
theorem reconcile_outcome_conservation_witness :
    ∃ o, processTask okStore (fun _ => some extOrd) [("id", "t1")] = .ok o ∧
      o.created_entities.length + o.errors.countP isEntityErr
        = (extract_entities_from_task (fun _ => some extOrd) [("id", "t1")]).entities.length ∧
      o.created_relationships.length + o.errors.countP isRelErr
        = (extract_entities_from_task (fun _ => some extOrd) [("id", "t1")]).relationships.length :=
  reconcile_outcome_conservation okStore (fun _ => some extOrd) [("id", "t1")] (by decide)

end Lumora
